import Mathlib

/-!
Verification of the two educational notebooks of this repository: the
coin-flip simulations of `distribute_gaussians.ipynb` (law of large
numbers, sampling distributions, Monte-Carlo integration) and the
numpy-tutorial notebook with its abandoned CSV-loading cells.

Numeric cells are embedded over exact rationals (coin statistics) and
real numbers (Monte-Carlo integration); the randomness consumed from
`scipy.stats.bernoulli(0.5).rvs` and `np.random.uniform` is made
explicit as a stream argument.
-/

namespace NumpyStats

/-- np.mean over a one-dimensional array: the sum of the elements divided
by their count. -/
def np_mean (xs : List ℚ) : ℚ := xs.sum / xs.length

/-- numpy's arange over naturals: the values start, start+step, ... that
are strictly below stop. -/
def np_arange (start stop step : Nat) : List Nat :=
  List.range' start ((stop - start + step - 1) / step) step

/-- The notebook's `throw_a_coin(n)`. Modelled from the spec: the call
`bernoulli(0.5).rvs(size=n)` (scipy, not part of this repository) is
embedded as reading `n` fresh draws of a boolean randomness stream
`coin` starting at offset `off`; each draw is 1 for heads, 0 for
tails. -/
def throw_a_coin (coin : Nat → Bool) (off n : Nat) : List ℚ :=
  (List.range n).map (fun j => if coin (off + j) then 1 else 0)

/-- The cell `random_flips = throw_a_coin(10000)`. -/
def random_flips (coin : Nat → Bool) : List ℚ := throw_a_coin coin 0 10000

/-- The cell `sequence_lengths = np.arange(1,10001,1)`. -/
def sequence_lengths : List Nat := np_arange 1 10001 1

/-- An in-place update loop over a numpy array: for each index `i` of
`idxs` in order, write `v i` into position `g i` of the array. -/
def writeLoop (g : Nat → Nat) (v : Nat → α) : List Nat → Array α → Array α
  | [], arr => arr
  | i :: rest, arr => writeLoop g v rest (arr.set! (g i) (v i))

/-- The loop `for i in sequence_lengths: running_means[i-1] =
np.mean(random_flips[:i])` over `running_means = np.zeros(10000)`. -/
def running_means (flips : List ℚ) : Array ℚ :=
  writeLoop (fun i => i - 1) (fun i => np_mean (flips.take i))
    sequence_lengths (Array.mkArray 10000 0)

/-- The randomness stream shifted forward by `t` draws: models a global
random generator of which the first `t` draws have been consumed. -/
def shiftCoin (coin : Nat → Bool) (t : Nat) : Nat → Bool := fun j => coin (t + j)

/-- The notebook's `make_throws(number_of_samples, sample_size)`:
`start = np.zeros((M, N))` filled row by row, row `i` by its own
`throw_a_coin(N)` call (the `i`-th call reads draws `i*N ..< (i+1)*N` of
the stream), then `np.mean(start, axis=1)`. -/
def make_throws (coin : Nat → Bool) (number_of_samples sample_size : Nat) :
    List ℚ :=
  let start := writeLoop (fun i => i)
    (fun i => throw_a_coin coin (i * sample_size) sample_size)
    (List.range number_of_samples)
    (Array.mkArray number_of_samples (List.replicate sample_size (0 : ℚ)))
  start.toList.map np_mean

/-- The cell `sample_sizes = np.arange(1,1001,10)`. -/
def sample_sizes : List Nat := np_arange 1 1001 10

/-- Draws consumed by the first `k` entries of the `sample_means` list
comprehension: the `j`-th `make_throws(200, sample_sizes[j])` call reads
`200 * sample_sizes[j]` draws of the global stream. -/
def consumedBefore (k : Nat) : Nat := 200 * (sample_sizes.take k).sum

/-- The cell `sample_means = [make_throws(number_of_samples=200,
sample_size=i) for i in sample_sizes]`, with the global randomness
stream consumed left to right. -/
def sample_means (coin : Nat → Bool) : List (List ℚ) :=
  (List.range sample_sizes.length).map
    (fun k => make_throws (shiftCoin coin (consumedBefore k)) 200
      (sample_sizes.getD k 0))

/-- The cell `mean_of_sample_means = [np.mean(means) for means in
sample_means]`. -/
def mean_of_sample_means (coin : Nat → Bool) : List ℚ :=
  (sample_means coin).map np_mean

/-! Monte-Carlo integration cells of `distribute_gaussians.ipynb`. -/

namespace MC

/-- The integrand `f(x) = x**2 + 4*x*np.sin(x)`. -/
noncomputable def f (x : ℝ) : ℝ := x ^ 2 + 4 * x * Real.sin x

/-- The antiderivative `intf(x) = x**3/3.0 + 4.0*np.sin(x) - 4.0*x*np.cos(x)`. -/
noncomputable def intf (x : ℝ) : ℝ :=
  x ^ 3 / 3 + 4 * Real.sin x - 4 * x * Real.cos x

/-- The cell `a = 2`. -/
def lo : ℝ := 2

/-- The cell `b = 3`. -/
def hi : ℝ := 3

/-- The cell `exactval = intf(b) - intf(a)`. -/
noncomputable def exactval : ℝ := intf hi - intf lo

/-- The loop body `Imc[N] = (b-a) * np.sum(Y)/ N` with `Y = f(X)` for a
sample `X` of `N` uniform draws: the division is by the sample count, so
an empty sample divides by zero and yields no well-defined estimate. -/
noncomputable def Imc_entry (X : List ℝ) : Option ℝ :=
  if X.length = 0 then none
  else some ((hi - lo) * (X.map f).sum / X.length)

/-- The draw `X = np.random.uniform(low=a, high=b, size=N)` of iteration
`N`, read from a per-iteration stream `u`. -/
def mc_sample (u : Nat → Nat → ℝ) (N : Nat) : List ℝ := (List.range N).map (u N)

/-- The entry `Imc[N]` of the error-scaling loop `for N in np.arange(0,1000)`. -/
noncomputable def Imc (u : Nat → Nat → ℝ) (N : Nat) : Option ℝ :=
  Imc_entry (mc_sample u N)

/-- The indices of `Imc` that the slice `Imc[10:]` of the plotting call
reads. -/
def plotIdxs : List Nat := (List.range 1000).drop 10

/-- The plotted curve `np.sqrt((Imc[10:]-exactval)**2)`, as a function of
the array of estimates. -/
noncomputable def plotted_errors (g : Nat → ℝ) : List ℝ :=
  plotIdxs.map (fun i => Real.sqrt ((g i - exactval) ^ 2))

/-- The overlaid reference curve `1/np.sqrt(Na[10:])`. -/
noncomputable def ref_curve (i : Nat) : ℝ := 1 / Real.sqrt i

/-- np.log10. -/
noncomputable def np_log10 (x : ℝ) : ℝ := Real.logb 10 x

/-- np.diff: the list of differences of consecutive elements. -/
def np_diff : List ℝ → List ℝ
  | x :: y :: rest => (y - x) :: np_diff (y :: rest)
  | _ => []

/-- np.mean over a real array. -/
noncomputable def np_meanR (xs : List ℝ) : ℝ := xs.sum / xs.length

/-- The slope estimate
`np.mean(np.diff(np.log10(stds))/np.diff(np.log10(sizes)))`. -/
noncomputable def slope_estimate (sizes stds : List ℝ) : ℝ :=
  np_meanR (List.zipWith (fun d1 d2 => d1 / d2)
    (np_diff (stds.map np_log10)) (np_diff (sizes.map np_log10)))

end MC

/-! The cell-execution contract of the two committed notebooks: cells run
in committed order against a growing environment of bound names; an
exception a cell does not handle propagates to the notebook interface
and is recorded, and execution continues with the next cell. -/

namespace Cells

/-- A Python exception as the committed tracebacks record it. -/
inductive PyError
  | typeError (msg : String)
  | nameError (msg : String)
deriving DecidableEq

/-- The statement forms the committed code cells use: an import binding a
name, a shell escape reading a file path, the `pd.read_csv` assignment
with its keyword arguments, an ordinary assignment, and a bare
expression; `reads` lists the free global names a statement evaluates. -/
inductive Stmt
  | importAs (target : String)
  | shell (path : String)
  | readCsvAssign (target : String) (path : String) (reads : List String)
      (kwargs : List String)
  | assign (target : String) (reads : List String)
  | expr (reads : List String)
deriving DecidableEq

/-- Modelled from the spec: the keyword parameters of `pandas.read_csv`
(pandas is not part of this repository). The committed traceback records
that `head` is not among them. -/
def read_csv_kwargs : List String :=
  [ "filepath_or_buffer", "sep", "delimiter", "header", "names",
    "index_col", "usecols", "dtype", "skiprows", "nrows" ]

def firstBadKwarg (kwargs : List String) : Option String :=
  kwargs.find? (fun k => !(read_csv_kwargs.contains k))

def firstUnbound (env : List String) (reads : List String) : Option String :=
  reads.find? (fun r => !(env.contains r))

def nameErrorMsg (r : String) : String :=
  "name '" ++ r ++ "' is not defined"

def typeErrorMsg (k : String) : String :=
  "read_csv() got an unexpected keyword argument '" ++ k ++ "'"

def runStmt (env : List String) : Stmt → Except PyError (List String)
  | .importAs t => .ok (t :: env)
  | .shell _ => .ok env
  | .readCsvAssign t _ reads kwargs =>
      match firstUnbound env reads with
      | some r => .error (.nameError (nameErrorMsg r))
      | none =>
          match firstBadKwarg kwargs with
          | some k => .error (.typeError (typeErrorMsg k))
          | none => .ok (t :: env)
  | .assign t reads =>
      match firstUnbound env reads with
      | some r => .error (.nameError (nameErrorMsg r))
      | none => .ok (t :: env)
  | .expr reads =>
      match firstUnbound env reads with
      | some r => .error (.nameError (nameErrorMsg r))
      | none => .ok env

/-- A code cell: its statements and the exception class names a
`try/except` of the cell would handle (none of the committed cells
contains a `try/except`). -/
structure Cell where
  stmts : List Stmt
  handlers : List String
deriving DecidableEq

def runStmts (env : List String) : List Stmt → List String × Option PyError
  | [] => (env, none)
  | s :: rest =>
      match runStmt env s with
      | .ok env2 => runStmts env2 rest
      | .error e => (env, some e)

def handles (c : Cell) (e : PyError) : Bool :=
  match e with
  | .typeError _ => c.handlers.contains "TypeError"
  | .nameError _ => c.handlers.contains "NameError"

/-- Run one cell: an exception handled by the cell is swallowed, any
other propagates to the notebook interface and is recorded. -/
def runCell (env : List String) (c : Cell) : List String × Option PyError :=
  match runStmts env c.stmts with
  | (env2, some e) => if handles c e then (env2, none) else (env2, some e)
  | (env2, none) => (env2, none)

def runNotebook (env : List String) : List Cell → List String × List (Option PyError)
  | [] => (env, [])
  | c :: rest =>
      match runCell env c with
      | (env2, e) =>
          match runNotebook env2 rest with
          | (envf, es) => (envf, e :: es)

/-- The hardcoded CSV path of the second notebook. -/
def mnist_path : String :=
  "/Users/yudhistirabiswal/Downloads/MNIST_CSV/mnist_test.csv"

/-- The 37 code cells of the second (numpy-tutorial) notebook, in
committed order. -/
def nb2cells : List Cell :=
  [ ⟨[.importAs "np"], []⟩,
    ⟨[.assign "my_array" ["np"], .expr ["my_array"]], []⟩,
    ⟨[.expr ["my_array"], .expr ["my_array"], .expr ["my_array"]], []⟩,
    ⟨[.expr ["my_array"], .expr ["np", "my_array"]], []⟩,
    ⟨[.expr ["np"]], []⟩,
    ⟨[.expr ["np"]], []⟩,
    ⟨[.expr ["np"]], []⟩,
    ⟨[.expr ["np"]], []⟩,
    ⟨[.expr ["np"]], []⟩,
    ⟨[.expr ["np"]], []⟩,
    ⟨[.expr ["np"]], []⟩,
    ⟨[.expr ["np"]], []⟩,
    ⟨[.assign "first" ["np"], .assign "second" ["np"],
      .expr ["first", "second"]], []⟩,
    ⟨[.assign "first_list" [], .assign "second_list" [],
      .expr ["first_list", "second_list"]], []⟩,
    ⟨[.expr ["first"]], []⟩,
    ⟨[.expr ["first"]], []⟩,
    ⟨[.assign "my_array2d" ["np"], .expr ["my_array2d"]], []⟩,
    ⟨[.expr ["my_array2d"]], []⟩,
    ⟨[.assign "ones_2d" ["np"], .expr ["ones_2d"]], []⟩,
    ⟨[.expr ["my_array2d"], .expr ["my_array2d"]], []⟩,
    ⟨[.assign "onesarray" ["np"], .expr ["onesarray"]], []⟩,
    ⟨[.expr ["onesarray"]], []⟩,
    ⟨[.expr ["np", "onesarray"]], []⟩,
    ⟨[.expr ["np", "onesarray"]], []⟩,
    ⟨[.expr ["np", "my_array2d"]], []⟩,
    ⟨[.expr ["np", "onesarray"]], []⟩,
    ⟨[.importAs "pd",
      .readCsvAssign "test_data" mnist_path ["pd"] ["head"],
      .expr ["test_data"]], []⟩,
    ⟨[.assign "labels" ["test_data"]], []⟩,
    ⟨[.expr ["labels"]], []⟩,
    ⟨[.assign "test_images_df" ["test_data"], .expr ["test_images_df"]], []⟩,
    ⟨[.assign "test_images" ["test_images_df"]], []⟩,
    ⟨[.expr ["test_images"]], []⟩,
    ⟨[.assign "test_images_tensor" ["test_images"],
      .expr ["test_iamges_tensor"]], []⟩,
    ⟨[.shell mnist_path], []⟩,
    ⟨[.importAs "matplotlib"], []⟩,
    ⟨[.importAs "plt"], []⟩,
    ⟨[.expr ["plt", "first_image"]], []⟩ ]

/-- The 22 code cells of `distribute_gaussians.ipynb`, in committed
order. -/
def nb1cells : List Cell :=
  [ ⟨[.importAs "np", .importAs "sp", .importAs "mpl", .importAs "cm",
      .importAs "plt", .importAs "pd", .importAs "bernoulli"], []⟩,
    ⟨[.assign "throw_a_coin" []], []⟩,
    ⟨[.assign "random_flips" ["throw_a_coin"],
      .assign "running_means" ["np"],
      .assign "sequence_lengths" ["np"],
      .expr ["sequence_lengths", "running_means", "np", "random_flips"]], []⟩,
    ⟨[.expr ["plt", "sequence_lengths", "running_means"], .expr ["plt"]], []⟩,
    ⟨[.assign "make_throws" []], []⟩,
    ⟨[.expr ["make_throws"]], []⟩,
    ⟨[.assign "sample_sizes" ["np"],
      .assign "sample_means" ["make_throws", "sample_sizes"]], []⟩,
    ⟨[.assign "mean_of_sample_means" ["np", "sample_means"],
      .expr ["mean_of_sample_means"]], []⟩,
    ⟨[.expr ["plt", "sample_sizes", "mean_of_sample_means"], .expr ["plt"],
      .expr ["plt"]], []⟩,
    ⟨[.assign "sample_means_1000_replicates" ["make_throws", "sample_sizes"],
      .assign "mean_of_sample_means_1000" ["np", "sample_means_1000_replicates"]], []⟩,
    ⟨[.expr ["plt", "sample_sizes", "mean_of_sample_means_1000"], .expr ["plt"],
      .expr ["plt"]], []⟩,
    ⟨[.expr ["sample_means"]], []⟩,
    ⟨[.expr ["sample_sizes"]], []⟩,
    ⟨[.expr ["plt", "sample_sizes", "sample_means"], .expr ["plt"],
      .expr ["plt"]], []⟩,
    ⟨[.expr ["plt", "sample_sizes", "sample_means_1000_replicates"],
      .expr ["plt"], .expr ["plt"]], []⟩,
    ⟨[.assign "std_of_sample_means_1000" ["np", "sample_means_1000_replicates"]], []⟩,
    ⟨[.expr ["plt", "np", "sample_sizes", "std_of_sample_means_1000"]], []⟩,
    ⟨[.expr ["np", "std_of_sample_means_1000", "sample_sizes"]], []⟩,
    ⟨[.expr ["plt", "sample_means", "np"]], []⟩,
    ⟨[.assign "f" [], .assign "intf" []], []⟩,
    ⟨[.assign "a" [], .assign "b" [], .assign "Imc" ["np"],
      .assign "Na" ["np"], .assign "exactval" ["intf", "b", "a"],
      .expr ["np", "a", "b"], .expr ["f"], .expr ["Imc", "b", "a", "np"],
      .expr ["plt", "Na", "Imc", "exactval", "np"], .expr ["plt", "Na", "np"],
      .expr ["plt"], .expr ["plt"]], []⟩,
    ⟨[.assign "m" [], .assign "N" [], .assign "Imc" ["np"],
      .expr ["np", "a", "b", "f", "Imc", "m", "N"], .expr ["plt", "Imc"],
      .expr ["plt"], .expr ["np", "Imc"]], []⟩ ]

/-- The file paths a statement touches. -/
def stmt_paths : Stmt → List String
  | .readCsvAssign _ path _ _ => [path]
  | .shell path => [path]
  | _ => []

def cell_paths (c : Cell) : List String :=
  c.stmts.foldr (fun s acc => stmt_paths s ++ acc) []

/-- Every file path the committed cells of either notebook touch. -/
def filesystem_paths_read : List String :=
  (nb1cells ++ nb2cells).foldr (fun c acc => cell_paths c ++ acc) []

end Cells

/-- Modelled from the spec: the numpy ndarray method call
`my_array.mean()` (numpy is not part of this repository), embedded as a
left-fold accumulation of the element sum divided by the element
count. -/
def ndarray_mean (xs : List ℚ) : ℚ :=
  (xs.foldl (fun acc x => acc + x) 0) / xs.length

/-- The cell `my_array = np.array([1, 2, 3, 4])`. -/
def my_array : List ℚ := [1, 2, 3, 4]

/-- The embedded committed computations as a function of the process
inputs: the command line `argv`, the process environment `environ`, and
the randomness stream `coin`. No committed cell mentions `sys.argv` or
`os.environ`, so neither of the first two arguments is read. -/
def notebook_outputs (_argv : List String) (_environ : String → Option String)
    (coin : Nat → Bool) : Array ℚ × List ℚ × List ℚ :=
  (running_means (random_flips coin), make_throws coin 20 10,
    mean_of_sample_means coin)

/-! Supporting lemmas. -/

theorem getElem?_setD_ne (a : Array α) (i j : Nat) (v : α) (hij : i ≠ j) :
    (a.setD i v)[j]? = a[j]? := by
  unfold Array.setD
  split
  · exact Array.getElem?_set_ne a _ v hij
  · rfl

theorem writeLoop_size (g : Nat → Nat) (v : Nat → α) :
    ∀ (l : List Nat) (arr : Array α), (writeLoop g v l arr).size = arr.size := by
  intro l
  induction l with
  | nil => intro arr; rfl
  | cons i rest ih =>
      intro arr
      simp only [writeLoop, ih, Array.set!_is_setD, Array.size_setD]

theorem writeLoop_get_notin (g : Nat → Nat) (v : Nat → α) (j : Nat) :
    ∀ (l : List Nat) (arr : Array α), (∀ i ∈ l, g i ≠ j) →
      (writeLoop g v l arr)[j]? = arr[j]? := by
  intro l
  induction l with
  | nil => intro arr _; rfl
  | cons i rest ih =>
      intro arr h
      have hrest : ∀ k ∈ rest, g k ≠ j := fun k hk => h k (List.mem_cons_of_mem _ hk)
      have hi : g i ≠ j := h i (List.mem_cons_self _ _)
      calc (writeLoop g v (i :: rest) arr)[j]?
          = (arr.set! (g i) (v i))[j]? := ih _ hrest
        _ = arr[j]? := by
            rw [show arr.set! (g i) (v i) = arr.setD (g i) (v i) from rfl]
            exact getElem?_setD_ne arr (g i) j (v i) hi

theorem writeLoop_get (g : Nat → Nat) (v : Nat → α) :
    ∀ (l : List Nat) (arr : Array α) (i : Nat), l.Nodup → i ∈ l →
      g i < arr.size → (∀ k ∈ l, g k = g i → k = i) →
      (writeLoop g v l arr)[g i]? = some (v i) := by
  intro l
  induction l with
  | nil => intro arr i _ hmem; exact absurd hmem (List.not_mem_nil i)
  | cons a rest ih =>
      intro arr i hnd hmem hsz hinj
      rcases List.mem_cons.mp hmem with rfl | hmem
      · have hrest : ∀ k ∈ rest, g k ≠ g i := by
          intro k hk hgk
          have : k = i := hinj k (List.mem_cons_of_mem _ hk) hgk
          subst this
          exact (List.nodup_cons.mp hnd).1 hk
        have hframe := writeLoop_get_notin g v (g i) rest
          (arr.set! (g i) (v i)) hrest
        calc (writeLoop g v (i :: rest) arr)[g i]?
            = (arr.set! (g i) (v i))[g i]? := hframe
          _ = some (v i) := by
              rw [show arr.set! (g i) (v i) = arr.setD (g i) (v i) from rfl]
              exact Array.getElem?_setD_eq arr hsz (v i)
      · have hsz' : g i < (arr.set! (g a) (v a)).size := by
          rw [show arr.set! (g a) (v a) = arr.setD (g a) (v a) from rfl,
            Array.size_setD]
          exact hsz
        exact ih (arr.set! (g a) (v a)) i (List.nodup_cons.mp hnd).2 hmem hsz'
          (fun k hk => hinj k (List.mem_cons_of_mem _ hk))

theorem sequence_lengths_eq : sequence_lengths = List.range' 1 10000 1 := by
  unfold sequence_lengths np_arange
  norm_num

theorem length_throw_a_coin (coin : Nat → Bool) (off n : Nat) :
    (throw_a_coin coin off n).length = n := by
  unfold throw_a_coin
  simp

theorem running_means_at (flips : List ℚ) (i : Nat)
    (h1 : 1 ≤ i) (h2 : i ≤ 10000) :
    (running_means flips)[i - 1]? = some (np_mean (flips.take i)) := by
  unfold running_means
  have hmem : i ∈ sequence_lengths := by
    rw [sequence_lengths_eq]
    simpa [List.mem_range'_1] using ⟨h1, by omega⟩
  have hnd : sequence_lengths.Nodup := by
    rw [sequence_lengths_eq]
    exact List.nodup_range' 1 10000
  have hinj : ∀ k ∈ sequence_lengths, k - 1 = i - 1 → k = i := by
    intro k hk hk1
    rw [sequence_lengths_eq] at hk
    have := List.mem_range'_1.mp hk
    omega
  have hsz : i - 1 < (Array.mkArray 10000 (0 : ℚ)).size := by
    rw [Array.size_mkArray]
    omega
  exact writeLoop_get (fun i => i - 1) (fun i => np_mean (flips.take i))
    sequence_lengths (Array.mkArray 10000 0) i hnd hmem hsz hinj

theorem make_throws_length (coin : Nat → Bool) (M N : Nat) :
    (make_throws coin M N).length = M := by
  unfold make_throws
  simp [writeLoop_size]

theorem make_throws_at (coin : Nat → Bool) (M N m : Nat) (hm : m < M) :
    (make_throws coin M N)[m]? =
      some (np_mean (throw_a_coin coin (m * N) N)) := by
  unfold make_throws
  have hrow : (writeLoop (fun i => i)
      (fun i => throw_a_coin coin (i * N) N) (List.range M)
      (Array.mkArray M (List.replicate N (0 : ℚ))))[m]? =
      some (throw_a_coin coin (m * N) N) := by
    exact writeLoop_get (fun i => i) (fun i => throw_a_coin coin (i * N) N)
      (List.range M) (Array.mkArray M (List.replicate N 0)) m
      (List.nodup_range M) (List.mem_range.mpr hm)
      (by simpa using hm) (fun k _ hk => hk)
  rw [List.getElem?_map, ← Array.getElem?_eq_getElem?_toList, hrow]
  rfl

theorem throw_a_coin_congr (coin coin2 : Nat → Bool) (off n : Nat)
    (hagree : ∀ k, off ≤ k → k < off + n → coin2 k = coin k) :
    throw_a_coin coin2 off n = throw_a_coin coin off n := by
  unfold throw_a_coin
  refine List.map_congr_left ?_
  intro j hj
  have hj' : j < n := List.mem_range.mp hj
  rw [hagree (off + j) (Nat.le_add_right _ _) (by omega)]

theorem throw_a_coin_mem (coin : Nat → Bool) (off n : Nat) :
    ∀ x ∈ throw_a_coin coin off n, x = 0 ∨ x = 1 := by
  intro x hx
  unfold throw_a_coin at hx
  obtain ⟨j, _, hj⟩ := List.mem_map.mp hx
  by_cases h : coin (off + j) = true
  · right; rw [← hj]; simp [h]
  · left; rw [← hj]; simp [h]

theorem np_mean_mem_unit (xs : List ℚ) (h0 : ∀ x ∈ xs, 0 ≤ x ∧ x ≤ 1)
    (hne : xs ≠ []) : 0 ≤ np_mean xs ∧ np_mean xs ≤ 1 := by
  have hlen : 0 < (xs.length : ℚ) := by
    have := List.length_pos.mpr hne
    exact_mod_cast this
  have hsum0 : 0 ≤ xs.sum := List.sum_nonneg (fun x hx => (h0 x hx).1)
  have hsum1 : xs.sum ≤ (xs.length : ℚ) := by
    have := List.sum_le_card_nsmul xs 1 (fun x hx => (h0 x hx).2)
    simpa using this
  constructor
  · exact div_nonneg hsum0 (le_of_lt hlen)
  · rw [np_mean, div_le_one hlen]
    exact hsum1

theorem sample_sizes_eq : sample_sizes = List.range' 1 100 10 := by
  unfold sample_sizes np_arange
  norm_num

namespace MC

theorem intf_hasDerivAt (x : ℝ) : HasDerivAt intf (f x) x := by
  have hpow : HasDerivAt (fun y : ℝ => y ^ 3 / 3) (((3 : ℕ) : ℝ) * x ^ 2 / 3) x := by
    simpa using (hasDerivAt_pow 3 x).div_const 3
  have hsin : HasDerivAt (fun y : ℝ => 4 * Real.sin y) (4 * Real.cos x) x :=
    (Real.hasDerivAt_sin x).const_mul 4
  have hprod : HasDerivAt (fun y : ℝ => 4 * y * Real.cos y)
      (4 * Real.cos x + 4 * x * (-Real.sin x)) x := by
    have hid : HasDerivAt (fun y : ℝ => 4 * y) 4 x := by
      simpa using (hasDerivAt_id x).const_mul 4
    simpa using hid.mul (Real.hasDerivAt_cos x)
  have h := (hpow.add hsin).sub hprod
  have hval : ((3 : ℕ) : ℝ) * x ^ 2 / 3 + 4 * Real.cos x -
      (4 * Real.cos x + 4 * x * (-Real.sin x)) = f x := by
    unfold f
    push_cast
    ring
  rw [hval] at h
  exact h

theorem np_log10_div_sqrt (s x : ℝ) (hs : 0 < s) (hx : 0 < x) :
    np_log10 (s / Real.sqrt x) = np_log10 s - np_log10 x / 2 := by
  unfold np_log10
  rw [Real.logb_div (ne_of_gt hs) (ne_of_gt (Real.sqrt_pos.mpr hx))]
  unfold Real.logb
  rw [Real.log_sqrt (le_of_lt hx)]
  ring

theorem np_log10_lt (x y : ℝ) (hx : 0 < x) (hxy : x < y) :
    np_log10 x < np_log10 y :=
  Real.logb_lt_logb (by norm_num) hx hxy

theorem slope_quotients (s : ℝ) (hs : 0 < s) :
    ∀ l : List ℝ, l.Chain' (· < ·) → (∀ x ∈ l, 0 < x) →
      List.zipWith (fun d1 d2 => d1 / d2)
        (np_diff ((l.map (fun n => s / Real.sqrt n)).map np_log10))
        (np_diff (l.map np_log10))
      = List.replicate (l.length - 1) (-(1 / 2) : ℝ) := by
  intro l
  induction l with
  | nil => intro _ _; rfl
  | cons x tail ih =>
      intro hchain hpos
      cases tail with
      | nil => rfl
      | cons y rest =>
          have hx : 0 < x := hpos x (by simp)
          have hy : 0 < y := hpos y (by simp)
          have hxy : x < y := (List.chain'_cons.mp hchain).1
          have hne : np_log10 y - np_log10 x ≠ 0 :=
            ne_of_gt (sub_pos.mpr (np_log10_lt x y hx hxy))
          have hhead : (np_log10 (s / Real.sqrt y) - np_log10 (s / Real.sqrt x)) /
              (np_log10 y - np_log10 x) = -(1 / 2) := by
            rw [np_log10_div_sqrt s y hs hy, np_log10_div_sqrt s x hs hx]
            field_simp
            ring
          have htail := ih (List.chain'_cons.mp hchain).2
            (fun z hz => hpos z (by simp [hz]))
          simp only [List.map_cons, np_diff, List.zipWith_cons_cons] at htail ⊢
          rw [hhead, htail]
          rfl

theorem np_meanR_replicate (m : Nat) (c : ℝ) (hm : 1 ≤ m) :
    np_meanR (List.replicate m c) = c := by
  unfold np_meanR
  rw [List.sum_replicate, List.length_replicate, nsmul_eq_mul]
  have hm0 : ((m : ℝ)) ≠ 0 := by
    have : m ≠ 0 := by omega
    exact_mod_cast this
  field_simp

theorem slope_estimate_of_sqrt_law (s : ℝ) (hs : 0 < s) (sizes : List ℝ)
    (hchain : sizes.Chain' (· < ·)) (hpos : ∀ x ∈ sizes, 0 < x)
    (hlen : 2 ≤ sizes.length) :
    slope_estimate sizes (sizes.map (fun n => s / Real.sqrt n)) = -(1 / 2) := by
  unfold slope_estimate
  rw [slope_quotients s hs sizes hchain hpos]
  exact np_meanR_replicate _ _ (by omega)

theorem plotIdxs_eq : plotIdxs = List.range' 10 990 := by
  unfold plotIdxs
  rw [List.range_eq_range', show (1000 : Nat) = 10 + 990 from rfl,
    ← List.range'_append_1 0 10 990]
  rw [show (10 : Nat) = (List.range' 0 10).length from by simp]
  exact List.drop_left _ _

end MC

theorem throw_a_coin_mem_unit (coin : Nat → Bool) (off n : Nat) :
    ∀ x ∈ throw_a_coin coin off n, 0 ≤ x ∧ x ≤ 1 := by
  intro x hx
  rcases throw_a_coin_mem coin off n x hx with h | h <;> subst h <;> norm_num

theorem mem_toList_setD (arr : Array α) (j : Nat) (x r : α)
    (hr : r ∈ (arr.setD j x).toList) : r ∈ arr.toList ∨ r = x := by
  unfold Array.setD at hr
  split at hr
  · rw [Array.toList_set] at hr
    exact List.mem_or_eq_of_mem_set hr
  · exact Or.inl hr

theorem writeLoop_toList_mem (g : Nat → Nat) (v : Nat → α) (P : α → Prop) :
    ∀ (l : List Nat) (arr : Array α), (∀ r ∈ arr.toList, P r) →
      (∀ i ∈ l, P (v i)) → ∀ r ∈ (writeLoop g v l arr).toList, P r := by
  intro l
  induction l with
  | nil => intro arr harr _ r hr; exact harr r hr
  | cons i rest ih =>
      intro arr harr hv r hr
      refine ih (arr.set! (g i) (v i)) ?_
        (fun k hk => hv k (List.mem_cons_of_mem _ hk)) r hr
      intro r2 hr2
      rcases mem_toList_setD arr (g i) (v i) r2 hr2 with h | h
      · exact harr r2 h
      · rw [h]; exact hv i (List.mem_cons_self _ _)

theorem make_throws_mem_unit (coin : Nat → Bool) (M N : Nat) (hN : 1 ≤ N) :
    ∀ q ∈ make_throws coin M N, 0 ≤ q ∧ q ≤ 1 := by
  intro q hq
  unfold make_throws at hq
  simp only [List.mem_map] at hq
  obtain ⟨row, hrow, rfl⟩ := hq
  have hP : (∀ x ∈ row, 0 ≤ x ∧ x ≤ 1) ∧ row ≠ [] := by
    refine writeLoop_toList_mem _ _
      (fun r => (∀ x ∈ r, 0 ≤ x ∧ x ≤ 1) ∧ r ≠ []) (List.range M) _ ?_ ?_ row hrow
    · intro r hr
      rw [Array.toList_mkArray] at hr
      have hrep := List.eq_of_mem_replicate hr
      subst hrep
      constructor
      · intro x hx
        have := List.eq_of_mem_replicate hx
        subst this
        norm_num
      · intro hnil
        have := congrArg List.length hnil
        simp at this
        omega
    · intro i _
      refine ⟨throw_a_coin_mem_unit coin (i * N) N, ?_⟩
      intro hnil
      have := length_throw_a_coin coin (i * N) N
      rw [hnil] at this
      simp at this
      omega
  exact np_mean_mem_unit row hP.1 hP.2

theorem sample_sizes_getD_pos (k : Nat) (hk : k < sample_sizes.length) :
    1 ≤ sample_sizes.getD k 0 := by
  have hmem : sample_sizes.getD k 0 ∈ sample_sizes := by
    rw [List.getD_eq_getElem?_getD, List.getElem?_eq_getElem hk]
    exact List.getElem_mem hk
  rw [sample_sizes_eq] at hmem ⊢
  obtain ⟨j, _, hj⟩ := List.mem_range'.mp hmem
  omega

/-! The claims. -/

/-- C1: running the second notebook's committed cells in order, the
CSV-loading cell (index 26) raises the TypeError
`read_csv() got an unexpected keyword argument 'head'`; the name
`test_data` is never bound after any prefix of the run; the later
`test_data.drop(0, axis=1)` cell (index 29) raises the NameError
`name 'test_data' is not defined`; and no cell of either notebook
declares a handler, so both exceptions propagate to the recorded
output. -/
theorem claim_C1 :
    (Cells.runNotebook [] Cells.nb2cells).snd[26]? =
      some (some (.typeError "read_csv() got an unexpected keyword argument 'head'"))
    ∧ (∀ k ∈ List.range (Cells.nb2cells.length + 1),
        "test_data" ∉ (Cells.runNotebook [] (Cells.nb2cells.take k)).fst)
    ∧ (Cells.runNotebook [] Cells.nb2cells).snd[29]? =
      some (some (.nameError "name 'test_data' is not defined"))
    ∧ (∀ c ∈ Cells.nb2cells, c.handlers = [])
    ∧ (∀ c ∈ Cells.nb1cells, c.handlers = []) := by
  refine ⟨by decide, by decide, by decide, by decide, by decide⟩

/-- C2: for a sample of at least one draw, the Monte-Carlo entry equals
`(b - a)` times the average of the function evaluations; the exact value
is `intf(3) - intf(2)`; and `intf` is an antiderivative of `f`. -/
theorem claim_C2 (X : List ℝ) (h : 1 ≤ X.length) :
    MC.Imc_entry X = some ((MC.hi - MC.lo) * ((X.map MC.f).sum / X.length))
    ∧ MC.exactval = MC.intf 3 - MC.intf 2
    ∧ ∀ x, HasDerivAt MC.intf (MC.f x) x := by
  refine ⟨?_, rfl, MC.intf_hasDerivAt⟩
  unfold MC.Imc_entry
  rw [if_neg (by omega), mul_div_assoc]

/-- C2 witness: the singleton sample `[2.5]`. -/
theorem claim_C2_witness :
    1 ≤ ([(2.5 : ℝ)]).length
    ∧ (MC.Imc_entry [(2.5 : ℝ)] =
        some ((MC.hi - MC.lo) * ((([(2.5 : ℝ)]).map MC.f).sum / ([(2.5 : ℝ)]).length))
      ∧ MC.exactval = MC.intf 3 - MC.intf 2
      ∧ ∀ x, HasDerivAt MC.intf (MC.f x) x) :=
  ⟨by simp, claim_C2 [(2.5 : ℝ)] (by simp)⟩

/-- C3: when the standard deviation of the sample means follows the
`s/sqrt(N)` law over increasing positive sample sizes, the notebook's
mean-of-pairwise-slopes estimate over the log10-log10 data is exactly
-0.5; and an error curve obeying a `c/sqrt(N)` law coincides with the
overlaid `1/sqrt(N)` reference curve scaled by `c` on the plotted
range. -/
theorem claim_C3 (s : ℝ) (sizes : List ℝ) (hs : 0 < s)
    (hchain : sizes.Chain' (· < ·)) (hpos : ∀ x ∈ sizes, 0 < x)
    (hlen : 2 ≤ sizes.length) :
    MC.slope_estimate sizes (sizes.map (fun n => s / Real.sqrt n)) = -(1 / 2)
    ∧ (∀ c : ℝ, ∀ g : Nat → ℝ,
        (∀ i ∈ MC.plotIdxs, |g i - MC.exactval| = c * MC.ref_curve i) →
        MC.plotted_errors g = MC.plotIdxs.map (fun i => c * MC.ref_curve i)) := by
  refine ⟨MC.slope_estimate_of_sqrt_law s hs sizes hchain hpos hlen, ?_⟩
  intro c g hg
  unfold MC.plotted_errors
  refine List.map_congr_left ?_
  intro i hi
  rw [Real.sqrt_sq_eq_abs, hg i hi]

/-- C3 witness: sample sizes 1 and 10 with scale 1. -/
theorem claim_C3_witness :
    (0 < (1 : ℝ) ∧ List.Chain' (· < ·) [(1 : ℝ), 10]
      ∧ (∀ x ∈ [(1 : ℝ), 10], 0 < x) ∧ 2 ≤ ([(1 : ℝ), 10]).length)
    ∧ (MC.slope_estimate [(1 : ℝ), 10]
          (([(1 : ℝ), 10]).map (fun n => 1 / Real.sqrt n)) = -(1 / 2)
      ∧ (∀ c : ℝ, ∀ g : Nat → ℝ,
          (∀ i ∈ MC.plotIdxs, |g i - MC.exactval| = c * MC.ref_curve i) →
          MC.plotted_errors g = MC.plotIdxs.map (fun i => c * MC.ref_curve i))) :=
  ⟨⟨by norm_num, by norm_num [List.chain'_pair], by norm_num, by norm_num⟩,
    claim_C3 1 [(1 : ℝ), 10] (by norm_num) (by norm_num [List.chain'_pair])
      (by norm_num) (by norm_num)⟩

/-- C4: after the law-of-large-numbers loop, for every `1 ≤ i ≤ 10000`
the entry `running_means[i-1]` is the arithmetic mean of the first `i`
elements of `random_flips`, and `sequence_lengths` is exactly
`1, 2, ..., 10000`. -/
theorem claim_C4 (coin : Nat → Bool) (i : Nat) (h1 : 1 ≤ i) (h2 : i ≤ 10000) :
    (running_means (random_flips coin))[i - 1]? =
      some (np_mean ((random_flips coin).take i))
    ∧ sequence_lengths.length = 10000
    ∧ (∀ k, k < 10000 → sequence_lengths[k]? = some (1 + k)) := by
  refine ⟨running_means_at _ i h1 h2, ?_, ?_⟩
  · rw [sequence_lengths_eq]
    simp
  · intro k hk
    rw [sequence_lengths_eq, List.getElem?_range' 1 1 hk]
    simp

/-- C4 witness: the all-heads stream at `i = 1`. -/
theorem claim_C4_witness :
    (1 ≤ 1 ∧ 1 ≤ 10000)
    ∧ ((running_means (random_flips (fun _ => true)))[1 - 1]? =
        some (np_mean ((random_flips (fun _ => true)).take 1))
      ∧ sequence_lengths.length = 10000
      ∧ (∀ k, k < 10000 → sequence_lengths[k]? = some (1 + k))) :=
  ⟨⟨by decide, by decide⟩, claim_C4 (fun _ => true) 1 (by decide) (by decide)⟩

/-- C5: `make_throws(M, N)` returns exactly `M` values; the `m`-th is the
arithmetic mean of the `N` flips of row `m`, drawn by that row's own
`throw_a_coin(N)` call; the `m`-th value depends only on that call's own
window of the randomness stream (no mixing across rows); and
`make_throws(number_of_samples=20, sample_size=10)` returns 20 sample
means. -/
theorem claim_C5 (coin : Nat → Bool) (M N m : Nat) (hm : m < M) :
    (make_throws coin M N).length = M
    ∧ (make_throws coin M N)[m]? = some (np_mean (throw_a_coin coin (m * N) N))
    ∧ (throw_a_coin coin (m * N) N).length = N
    ∧ (∀ coin2 : Nat → Bool,
        (∀ k, m * N ≤ k → k < m * N + N → coin2 k = coin k) →
        (make_throws coin2 M N)[m]? = (make_throws coin M N)[m]?)
    ∧ (make_throws coin 20 10).length = 20 := by
  refine ⟨make_throws_length coin M N, make_throws_at coin M N m hm,
    length_throw_a_coin _ _ _, ?_, make_throws_length coin 20 10⟩
  intro coin2 hagree
  rw [make_throws_at coin2 M N m hm, make_throws_at coin M N m hm,
    throw_a_coin_congr coin coin2 (m * N) N hagree]

/-- C5 witness: the all-heads stream with 20 replications of size 10 at
row 0. -/
theorem claim_C5_witness :
    0 < 20
    ∧ ((make_throws (fun _ => true) 20 10).length = 20
      ∧ (make_throws (fun _ => true) 20 10)[0]? =
          some (np_mean (throw_a_coin (fun _ => true) (0 * 10) 10))
      ∧ (throw_a_coin (fun _ => true) (0 * 10) 10).length = 10
      ∧ (∀ coin2 : Nat → Bool,
          (∀ k, 0 * 10 ≤ k → k < 0 * 10 + 10 → coin2 k = (fun _ => true) k) →
          (make_throws coin2 20 10)[0]? = (make_throws (fun _ => true) 20 10)[0]?)
      ∧ (make_throws (fun _ => true) 20 10).length = 20) :=
  ⟨by decide, claim_C5 (fun _ => true) 20 10 0 (by decide)⟩

/-- C6: the ndarray method mean and the function np.mean agree on every
array, and on `my_array = [1, 2, 3, 4]` both return `5/2 = 2.5`. -/
theorem claim_C6 :
    (∀ xs : List ℚ, ndarray_mean xs = np_mean xs)
    ∧ ndarray_mean my_array = 5 / 2
    ∧ np_mean my_array = 5 / 2 := by
  have hfold : ∀ (xs : List ℚ) (acc : ℚ),
      xs.foldl (fun s x => s + x) acc = acc + xs.sum := by
    intro xs
    induction xs with
    | nil => intro acc; simp
    | cons x t ih => intro acc; simp [ih, add_assoc]
  refine ⟨?_, ?_, ?_⟩
  · intro xs
    unfold ndarray_mean np_mean
    rw [hfold]
    simp
  · norm_num [ndarray_mean, my_array]
  · norm_num [np_mean, my_array]

/-- C7: the embedded committed computations are invariant under the
command line and the process environment; the only file paths any
committed cell touches are the two references to the hardcoded MNIST CSV
path; and that path is not a file of a repository whose files are all
notebooks. -/
theorem claim_C7 :
    (∀ (argv1 argv2 : List String) (env1 env2 : String → Option String)
        (coin : Nat → Bool),
        notebook_outputs argv1 env1 coin = notebook_outputs argv2 env2 coin)
    ∧ Cells.filesystem_paths_read = [Cells.mnist_path, Cells.mnist_path]
    ∧ (∀ p ∈ Cells.filesystem_paths_read, p = Cells.mnist_path)
    ∧ (∀ repoFiles : List String,
        (∀ q ∈ repoFiles, (".ipynb".data).isSuffixOf q.data = true) →
        Cells.mnist_path ∉ repoFiles) := by
  refine ⟨fun _ _ _ _ _ => rfl, by decide, by decide, ?_⟩
  intro repoFiles hall hmem
  have h := hall _ hmem
  have hcsv : (".ipynb".data).isSuffixOf Cells.mnist_path.data = false := by
    decide
  rw [hcsv] at h
  exact Bool.noConfusion h

/-- C8: the first iteration of the error-scaling loop draws an empty
sample and divides by the zero count, so `Imc[0]` is no well-defined
estimate; every iteration with `N ≥ 1` divides by a nonzero count; index
0 is outside the plotted slice `Imc[10:]`; and the plotted error curve
does not depend on the entries below index 10. -/
theorem claim_C8 (u : Nat → Nat → ℝ) :
    MC.Imc u 0 = none
    ∧ (MC.mc_sample u 0).length = 0
    ∧ (∀ N, 1 ≤ N → (MC.Imc u N).isSome = true)
    ∧ 0 ∉ MC.plotIdxs
    ∧ (∀ g1 g2 : Nat → ℝ, (∀ i, 10 ≤ i → g1 i = g2 i) →
        MC.plotted_errors g1 = MC.plotted_errors g2) := by
  refine ⟨rfl, rfl, ?_, ?_, ?_⟩
  · intro N hN
    unfold MC.Imc MC.Imc_entry
    rw [if_neg]
    · rfl
    · unfold MC.mc_sample
      simp
      omega
  · rw [MC.plotIdxs_eq]
    intro hmem
    have := List.mem_range'_1.mp hmem
    omega
  · intro g1 g2 hag
    unfold MC.plotted_errors
    refine List.map_congr_left ?_
    intro i hi
    have h10 : 10 ≤ i := by
      rw [MC.plotIdxs_eq] at hi
      exact (List.mem_range'_1.mp hi).1
    rw [hag i h10]

/-- C9: every flip `throw_a_coin` returns is 0 or 1, and every mean
derived from flips — each defined `running_means` entry, every
`make_throws` value, and every entry of `mean_of_sample_means` — lies in
the closed interval `[0, 1]`. -/
theorem claim_C9 (coin : Nat → Bool) (off n M N m i : Nat)
    (hi1 : 1 ≤ i) (hi2 : i ≤ 10000) (hm : m < M) (hN : 1 ≤ N) :
    (∀ x ∈ throw_a_coin coin off n, x = 0 ∨ x = 1)
    ∧ (∃ q, (running_means (random_flips coin))[i - 1]? = some q
        ∧ 0 ≤ q ∧ q ≤ 1)
    ∧ (∃ q, (make_throws coin M N)[m]? = some q ∧ 0 ≤ q ∧ q ≤ 1)
    ∧ (∀ q ∈ mean_of_sample_means coin, 0 ≤ q ∧ q ≤ 1) := by
  refine ⟨throw_a_coin_mem coin off n, ?_, ?_, ?_⟩
  · refine ⟨np_mean ((random_flips coin).take i),
      running_means_at _ i hi1 hi2, ?_⟩
    refine np_mean_mem_unit _ ?_ ?_
    · intro x hx
      exact throw_a_coin_mem_unit coin 0 10000 x (List.take_subset i _ hx)
    · intro hnil
      have := congrArg List.length hnil
      rw [List.length_take] at this
      simp only [random_flips, length_throw_a_coin, List.length_nil] at this
      omega
  · refine ⟨np_mean (throw_a_coin coin (m * N) N),
      make_throws_at coin M N m hm, ?_⟩
    refine np_mean_mem_unit _ (throw_a_coin_mem_unit coin (m * N) N) ?_
    intro hnil
    have := length_throw_a_coin coin (m * N) N
    rw [hnil] at this
    simp at this
    omega
  · intro q hq
    unfold mean_of_sample_means at hq
    simp only [List.mem_map] at hq
    obtain ⟨means, hmeans, rfl⟩ := hq
    unfold sample_means at hmeans
    simp only [List.mem_map, List.mem_range] at hmeans
    obtain ⟨k, hk, rfl⟩ := hmeans
    have hk1 : 1 ≤ sample_sizes.getD k 0 := sample_sizes_getD_pos k hk
    refine np_mean_mem_unit _
      (make_throws_mem_unit _ 200 _ hk1) ?_
    intro hnil
    have := make_throws_length (shiftCoin coin (consumedBefore k)) 200
      (sample_sizes.getD k 0)
    rw [hnil] at this
    simp at this

/-- C9 witness: the all-heads stream with one flip, one replication of
one observation, at the first running mean. -/
theorem claim_C9_witness :
    (1 ≤ 1 ∧ 1 ≤ 10000 ∧ 0 < 1 ∧ 1 ≤ 1)
    ∧ ((∀ x ∈ throw_a_coin (fun _ => true) 0 1, x = 0 ∨ x = 1)
      ∧ (∃ q, (running_means (random_flips (fun _ => true)))[1 - 1]? = some q
          ∧ 0 ≤ q ∧ q ≤ 1)
      ∧ (∃ q, (make_throws (fun _ => true) 1 1)[0]? = some q ∧ 0 ≤ q ∧ q ≤ 1)
      ∧ (∀ q ∈ mean_of_sample_means (fun _ => true), 0 ≤ q ∧ q ≤ 1)) :=
  ⟨⟨by decide, by decide, by decide, by decide⟩,
    claim_C9 (fun _ => true) 0 1 1 1 0 1 (by decide) (by decide) (by decide)
      (by decide)⟩

/-- C10: `sample_sizes = np.arange(1,1001,10)` has exactly the 100 values
`1, 11, ..., 991`; its maximum is 991, not 1000; no replication of size
1000 is ever drawn; and the entry `sample_means[99]`, which the notebook
presents for sample size 1000, is the `make_throws` result for sample
size 991. -/
theorem claim_C10 (coin : Nat → Bool) (k : Nat) (hk : k < 100) :
    sample_sizes.length = 100
    ∧ sample_sizes[k]? = some (1 + 10 * k)
    ∧ 991 ∈ sample_sizes
    ∧ (∀ s ∈ sample_sizes, s ≤ 991)
    ∧ 1000 ∉ sample_sizes
    ∧ sample_sizes[99]? = some 991
    ∧ (sample_means coin)[99]? =
        some (make_throws (shiftCoin coin (consumedBefore 99)) 200 991) := by
  refine ⟨?_, ?_, by decide, by decide, by decide, by decide, ?_⟩
  · rw [sample_sizes_eq]
    simp
  · rw [sample_sizes_eq]
    exact List.getElem?_range' 1 10 hk
  · unfold sample_means
    rw [List.getElem?_map]
    have hlen : sample_sizes.length = 100 := by
      rw [sample_sizes_eq]
      simp
    rw [hlen, List.getElem?_range (by norm_num : 99 < 100)]
    simp only [Option.map_some']
    rw [show sample_sizes.getD 99 0 = 991 from by decide]

/-- C10 witness: index 0. -/
theorem claim_C10_witness :
    0 < 100
    ∧ (sample_sizes.length = 100
      ∧ sample_sizes[0]? = some (1 + 10 * 0)
      ∧ 991 ∈ sample_sizes
      ∧ (∀ s ∈ sample_sizes, s ≤ 991)
      ∧ 1000 ∉ sample_sizes
      ∧ sample_sizes[99]? = some 991
      ∧ (sample_means (fun _ => true))[99]? =
          some (make_throws (shiftCoin (fun _ => true) (consumedBefore 99))
            200 991)) :=
  ⟨by decide, claim_C10 (fun _ => true) 0 (by decide)⟩

end NumpyStats
